import Mathlib

/-!
Verification development for the `correttore.py` text-correction pipeline.

The Python source is embedded shallowly: pure helper functions become Lean
functions over `String`/`List Char`, Python `int`/`float` arithmetic becomes
`Nat`/`Int`/`ℚ`, the fallible chunker returns `Except`, and the orchestrator's
unbounded `while` loops become a step function driven by explicit fuel.
External collaborators (the spaCy sentencizer, the Ollama correction service)
are modelled from the specification's interface descriptions; the Python
standard-library `difflib.SequenceMatcher.ratio` similarity measure is
reimplemented faithfully from its documented algorithm.
-/

namespace Correttore

/-! ## Python string primitives -/

/-- Characters removed by Python `str.strip()` with no argument. -/
def isPySpace (c : Char) : Bool :=
  c = ' ' ∨ c = '\t' ∨ c = '\n' ∨ c = '\r' ∨ c = '\x0b' ∨ c = '\x0c'

/-- Model of Python `str.strip()`: drop whitespace from both ends. -/
def pyStrip (s : String) : String :=
  ⟨((s.data.dropWhile isPySpace).reverse.dropWhile isPySpace).reverse⟩

/-- Normalise one Python slice bound against a string of length `n`:
negative bounds count from the end, and bounds are clamped to `[0, n]`. -/
def pySliceIdx (n : Nat) (x : Int) : Nat :=
  if x < 0 then (x + n).toNat else min x.toNat n

/-- Model of the Python slice `s[a:b]`. -/
def pySlice (s : String) (a b : Int) : String :=
  ⟨(s.data.take (pySliceIdx s.data.length b)).drop (pySliceIdx s.data.length a)⟩

/-- Model of the Python slice `s[:b]`. -/
def pySliceEnd (s : String) (b : Int) : String :=
  pySlice s 0 b

/-- The groups of Python `s.split('\n')` over a character list. -/
def splitNLGo : List Char → List (List Char)
  | [] => [[]]
  | c :: rest =>
    let r := splitNLGo rest
    if c = '\n' then [] :: r
    else
      match r with
      | h :: t => (c :: h) :: t
      | [] => [[c]]

/-- Model of Python `full_text.split('\n')` (so `"".split('\n') = [""]`). -/
def pySplitNewline (s : String) : List String :=
  (splitNLGo s.data).map (fun cs => ⟨cs⟩)

/-- `truncate_file` (src lines 32-37), modelled on the file's content: the file
is rewritten to `content[:-cutoff_index]` and truncated there. -/
def truncate_file (content : String) (cutoff_index : Int) : String :=
  pySliceEnd content (-cutoff_index)

/-! ## Model of `difflib.SequenceMatcher(None, a, b).ratio()`

Reimplemented from the CPython `difflib` algorithm with `isjunk = None`
(so the junk set is empty and the two junk-extension loops of
`find_longest_match` are no-ops) and the default `autojunk = True`
(elements of `b` occurring more than `len(b)//100 + 1` times are dropped
from the index when `len(b) ≥ 200`). -/

/-- Ascending positions of `c` in `b` (the `b2j` chain). -/
def charIndexes (b : List Char) (c : Char) : List Nat :=
  (b.enum.filter (fun p => p.2 = c)).map (·.1)

/-- The autojunk "popular" elements removed from `b2j`. -/
def autojunkPopular (b : List Char) : List Char :=
  if 200 ≤ b.length then
    b.dedup.filter (fun c => b.length / 100 + 1 < b.count c)
  else []

/-- `b2j.get(c, [])` after autojunk purging. -/
def b2jGet (b : List Char) (pop : List Char) (c : Char) : List Nat :=
  if pop.contains c then [] else charIndexes b c

/-- Lookup in the `j2len` association row, default `0`. -/
def lookupD (l : List (Nat × Nat)) (k : Nat) : Nat :=
  match l.find? (fun p => p.1 = k) with
  | some p => p.2
  | none => 0

structure FlmState where
  j2len : List (Nat × Nat)
  besti : Nat
  bestj : Nat
  bestsize : Nat

/-- One row (`for i in range(alo, ahi)`) of `find_longest_match`'s scan. -/
def flmRow (a b : List Char) (pop : List Char) (blo bhi : Nat)
    (st : FlmState) (i : Nat) : FlmState :=
  let js := (b2jGet b pop (a.getD i ' ')).filter
      (fun j => decide (blo ≤ j ∧ j < bhi))
  let inner := js.foldl (fun (st2 : List (Nat × Nat) × FlmState) j =>
      let k := (if j = 0 then 0 else lookupD st.j2len (j - 1)) + 1
      let s := st2.2
      let s' := if s.bestsize < k then
          { s with besti := i + 1 - k, bestj := j + 1 - k, bestsize := k }
        else s
      ((j, k) :: st2.1, s')) ([], st)
  { j2len := inner.1, besti := inner.2.besti, bestj := inner.2.bestj,
    bestsize := inner.2.bestsize }

/-- The dynamic-programming scan of `find_longest_match`. -/
def flmScan (a b : List Char) (pop : List Char) (alo ahi blo bhi : Nat) : FlmState :=
  (List.range' alo (ahi - alo)).foldl (flmRow a b pop blo bhi)
    { j2len := [], besti := alo, bestj := blo, bestsize := 0 }

/-- The leftward non-junk extension loop of `find_longest_match`. -/
def extMatchLeft (a b : List Char) (alo blo : Nat) :
    Nat → Nat × Nat × Nat → Nat × Nat × Nat
  | 0, s => s
  | fuel + 1, (besti, bestj, bestsize) =>
    if alo < besti ∧ blo < bestj ∧ a.getD (besti - 1) ' ' = b.getD (bestj - 1) ' ' then
      extMatchLeft a b alo blo fuel (besti - 1, bestj - 1, bestsize + 1)
    else (besti, bestj, bestsize)

/-- The rightward non-junk extension loop of `find_longest_match`. -/
def extMatchRight (a b : List Char) (ahi bhi : Nat) :
    Nat → Nat × Nat × Nat → Nat × Nat × Nat
  | 0, s => s
  | fuel + 1, (besti, bestj, bestsize) =>
    if besti + bestsize < ahi ∧ bestj + bestsize < bhi ∧
        a.getD (besti + bestsize) ' ' = b.getD (bestj + bestsize) ' ' then
      extMatchRight a b ahi bhi fuel (besti, bestj, bestsize + 1)
    else (besti, bestj, bestsize)

/-- `SequenceMatcher.find_longest_match` on the window `a[alo:ahi]`, `b[blo:bhi]`
(with an empty junk set the two junk-extension loops do nothing). -/
def find_longest_match (a b : List Char) (pop : List Char)
    (alo ahi blo bhi : Nat) : Nat × Nat × Nat :=
  let s0 := flmScan a b pop alo ahi blo bhi
  let s1 := extMatchLeft a b alo blo (s0.besti + 1) (s0.besti, s0.bestj, s0.bestsize)
  extMatchRight a b ahi bhi (ahi + 1) s1

/-- Total size of all matching blocks (`get_matching_blocks` keeps a stack of
unexplored windows; the right sub-window is pushed last, hence popped first). -/
def smMatches (a b : List Char) (pop : List Char) :
    Nat → List (Nat × Nat × Nat × Nat) → Nat → Nat
  | 0, _, acc => acc
  | _ + 1, [], acc => acc
  | fuel + 1, (alo, ahi, blo, bhi) :: rest, acc =>
    let m := find_longest_match a b pop alo ahi blo bhi
    let i := m.1
    let j := m.2.1
    let k := m.2.2
    if k = 0 then smMatches a b pop fuel rest acc
    else
      let q1 := if alo < i ∧ blo < j then (alo, i, blo, j) :: rest else rest
      let q2 := if i + k < ahi ∧ j + k < bhi then (i + k, ahi, j + k, bhi) :: q1 else q1
      smMatches a b pop fuel q2 (acc + k)

/-- `difflib.SequenceMatcher(None, a, b).ratio()`: `2*M / (len(a)+len(b))`,
and `1.0` when both strings are empty. -/
def smScore (sa sb : String) : ℚ :=
  let a := sa.data
  let b := sb.data
  let pop := autojunkPopular b
  let nMatches := smMatches a b pop (a.length + b.length + 1)
      [(0, a.length, 0, b.length)] 0
  if a.length + b.length = 0 then 1
  else (2 * nMatches : ℚ) / ((a.length + b.length : Nat) : ℚ)

/-! ## Sentence segmentation (external collaborator) -/

/-- A sentence span as produced by the segmenter: character offsets into the
segmented text plus the span's text (the shape of a spaCy `Span`). -/
structure SpacySpan where
  start_char : Nat
  end_char : Nat
  text : String
  deriving Repr, DecidableEq, Inhabited

/-- Sentence-final punctuation recognised by the sentencizer model. -/
def sentPunct (c : Char) : Bool :=
  c = '.' ∨ c = '!' ∨ c = '?'

/-- Raw segments: the text is cut after each maximal run of sentence-final
punctuation; each segment is returned with its start offset. -/
def rawSegsGo : List Char → Nat → List Char → Bool → Nat → List (Nat × List Char)
  | [], _, cur, _, st => if cur.isEmpty then [] else [(st, cur.reverse)]
  | c :: rest, pos, cur, inPunct, st =>
    if sentPunct c then rawSegsGo rest (pos + 1) (c :: cur) true st
    else if inPunct then (st, cur.reverse) :: rawSegsGo rest (pos + 1) [c] false pos
    else rawSegsGo rest (pos + 1) (c :: cur) false st

/-- Trim plain spaces (only `' '`, matching how spaCy absorbs inter-token
spaces while keeping newline tokens inside spans) from both ends of a raw
segment, keeping offsets consistent; empty results are dropped. -/
def trimSpan (st : Nat) (cs : List Char) : Option SpacySpan :=
  let lead := (cs.takeWhile (fun c => c = ' ')).length
  let rest := cs.drop lead
  let trail := (rest.reverse.takeWhile (fun c => c = ' ')).length
  let core := rest.take (rest.length - trail)
  if core.isEmpty then none
  else some ⟨st + lead, st + lead + core.length, ⟨core⟩⟩

/-- Modelled from the spec: the external sentence-segmentation collaborator
(spaCy `blank("xx")` with a `sentencizer`), which is out of scope for the
repository and specified only at its interface — "text in → ordered sequence
of sentence spans with character offsets into that exact text". Sentences end
after a maximal run of `.`/`!`/`?`; whitespace between sentences is not part
of any span except that newline characters stay inside spans, as spaCy keeps
them as tokens. -/
def nlpSents (s : String) : List SpacySpan :=
  (rawSegsGo s.data 0 [] false 0).filterMap (fun p => trimSpan p.1 p.2)

/-! ## `chunk_sentences` (src lines 44-79) -/

/-- `corrected_len` (src line 59): `len(ss) - ss.count("\n")`. -/
def corrected_len (ss : String) : Nat :=
  ss.length - (ss.data.filter (fun c => c = '\n')).length

/-- `substring_list[-1] += "\n"`, and `["\n"]` for an empty segmentation
(src lines 53-57). -/
def appendNewlineLast : List String → List String
  | [] => ["\n"]
  | [t] => [t ++ "\n"]
  | t :: ts => t :: appendNewlineLast ts

/-- The sentence strings one input line contributes to the chunker. -/
def lineSubs (s : String) : List String :=
  appendNewlineLast ((nlpSents s).map (·.text))

/-- The chunker's loop state: finished chunks, the chunk being accumulated,
its visible length, and the previous chunk's running overlap length. -/
structure ChunkAcc where
  chunks : List String
  current_chunk : List String
  current_length : ℚ
  old_length : ℚ
  deriving Repr

/-- `chunks[-1] += f" {ss}"` (src line 73). -/
def appendLastChunk (chunks : List String) (ss : String) : List String :=
  chunks.dropLast ++ [chunks.getLastD "" ++ " " ++ ss]

/-- Processing of one sentence string `ss` inside `chunk_sentences`'s inner
loop (src lines 58-74): the oversize check, the accumulate-or-close step, and
the overlap append onto the previous chunk. -/
def chunkStep (chunk_word_limit chunk_length : ℚ) (acc : ChunkAcc) (ss : String) :
    Except String ChunkAcc :=
  if ((corrected_len ss : ℚ)) > (chunk_word_limit - chunk_length) / 2 then
    .error ("String too long, increase CHUNK_CHARS_LIMIT: " ++ ss)
  else
    let acc1 :=
      if acc.current_length + (corrected_len ss : ℚ) ≤ chunk_length then
        { acc with current_chunk := acc.current_chunk ++ [ss],
                   current_length := acc.current_length + (corrected_len ss : ℚ) }
      else
        { acc with chunks := acc.chunks ++ [String.intercalate " " acc.current_chunk],
                   current_chunk := [ss],
                   old_length := acc.current_length,
                   current_length := (corrected_len ss : ℚ) }
    let acc2 :=
      if acc1.old_length ≤ chunk_word_limit ∧ 0 < acc1.chunks.length then
        { acc1 with chunks := appendLastChunk acc1.chunks ss,
                    old_length := acc1.old_length + (corrected_len ss : ℚ) }
      else acc1
    .ok acc2

/-- `chunk_sentences(string_list, chunk_word_limit, overlap_percent)`
(src lines 44-79): split each line into sentences, greedily pack them into
chunks of visible length at most `chunk_length`, copy trailing sentences onto
the previous chunk as overlap, and fail if a single sentence exceeds half the
overlap budget. -/
def chunk_sentences (string_list : List String)
    (chunk_word_limit overlap_percent : ℚ) : Except String (List String) :=
  match string_list.foldlM
      (fun acc s => (lineSubs s).foldlM
        (chunkStep chunk_word_limit
          (chunk_word_limit - chunk_word_limit * overlap_percent / 100)) acc)
      ⟨[], [], 0, 0⟩ with
  | .error e => .error e
  | .ok acc =>
    .ok (if 0 < acc.current_chunk.length then
        acc.chunks ++ [String.intercalate " " acc.current_chunk]
      else acc.chunks)

/-! ## `find_similarity` (src lines 98-114) -/

/-- `" ".join([s.text for s in l])`. -/
def joinTexts (l : List SpacySpan) : String :=
  String.intercalate " " (l.map (·.text))

/-- The triple loop's candidates in iteration order: `sentences1_start_index`
ascending, then `sentences2_start_index` ascending, then
`sentences2_end_index` ascending over `range(sentences2_start_index, n2)`. -/
def fsCandidates (n1 n2 : Nat) : List (Nat × Nat × Nat) :=
  (List.range n1).flatMap (fun i1 =>
    (List.range n2).flatMap (fun i2 =>
      (List.range' i2 (n2 - i2)).map (fun i2e => (i1, i2, i2e))))

/-- The similarity scored for one candidate: the suffix of `sentences1` from
`i1` against the slice `sentences2[i2:i2e]`, both joined by single spaces. -/
def candScore (s1 s2 : List SpacySpan) (c : Nat × Nat × Nat) : ℚ :=
  smScore (joinTexts (s1.drop c.1)) (joinTexts ((s2.drop c.2.1).take (c.2.2 - c.2.1)))

/-- The body of `find_similarity`'s loops: update the best tuple only on a
strictly greater similarity (src lines 109-113). -/
def fsStep (s1 s2 : List SpacySpan) (best : ℚ × Nat × Nat × Nat)
    (c : Nat × Nat × Nat) : ℚ × Nat × Nat × Nat :=
  if best.1 < candScore s1 s2 c then (candScore s1 s2 c, c.1, c.2.1, c.2.2) else best

/-- `find_similarity(sentences1, sentences2)` (src lines 98-114), written as a
fold over the candidate list in the source's iteration order. -/
def find_similarity (sentences1 sentences2 : List SpacySpan) : ℚ × Nat × Nat × Nat :=
  (fsCandidates sentences1.length sentences2.length).foldl
    (fsStep sentences1 sentences2) (0, 0, 0, 0)

/-- The claim's property, following the spec's words: the similarity returned
by `find_similarity` dominates the score of **every** start offset into
`sentences1` combined with **every** contiguous sub-range of `sentences2`
(so including sub-ranges whose exclusive end is `sentences2.length`,
i.e. sub-ranges containing the final sentence). -/
def find_similarity_dominates (s1 s2 : List SpacySpan) : Prop :=
  ∀ i1 i2 i2e, i1 < s1.length → i2 ≤ i2e → i2e ≤ s2.length →
    candScore s1 s2 (i1, i2, i2e) ≤ (find_similarity s1 s2).1

/-! ## Parameters (src lines 10-17) and orchestrator state -/

/-- The parameter block at the top of the source. The spec's §6 lists these as
the recognised configuration options; the source's concrete values are
`sourceConfig` below. `OVERLAP_PERCENT` and `MAX_OVERLAP_SIZE` are derived
exactly as in the source. -/
structure Config where
  CHUNK_CHARS_LIMIT : ℚ
  OUTPUT_PERCENT : ℚ
  MISMATCH_THRESHOLD : ℚ
  deriving Repr

def Config.OVERLAP_PERCENT (cfg : Config) : ℚ := 100 - cfg.OUTPUT_PERCENT

def Config.MAX_OVERLAP_SIZE (cfg : Config) : ℚ :=
  cfg.CHUNK_CHARS_LIMIT * cfg.OVERLAP_PERCENT / 100

/-- The source's concrete parameter values. -/
def sourceConfig : Config :=
  { CHUNK_CHARS_LIMIT := 2500, OUTPUT_PERCENT := 50, MISMATCH_THRESHOLD := 3 / 100 }

/-- One entry of `iteration_data` (src lines 134-139). -/
structure PieceData where
  paragraph : String
  corrected_segmented : List SpacySpan := []
  tail_overlap_index_start : Nat := 0
  written_start : Nat := 0
  written_end : Nat := 0
  deriving Repr, Inhabited

/-- The orchestrator's mutable state: the piece records, the active index, the
output file's content (`none` = the file does not exist), and how many
correction requests have been issued so far. The `backup_file` calls only copy
the output aside under a step-numbered name and never touch the output path,
so they are not modelled. -/
structure OrchState where
  iteration_data : List PieceData
  idx : Nat := 0
  outFile : Option String := none
  calls : Nat := 0
  deriving Repr, Inhabited

/-- The correction client adapter `correct_chunk_with_ollama` (src lines
82-95): the external service is a call-indexed oracle from the chunk text to
the response text, and the adapter strips the response. -/
def correct_chunk (oracle : Nat → String → String) (call : Nat) (chunk : String) :
    String :=
  pyStrip (oracle call chunk)

/-- Src lines 148-149: request a correction for the active piece and store its
segmentation; returns the new state and the local variable `corrected`. -/
def correctSegment (oracle : Nat → String → String) (st : OrchState) :
    OrchState × String :=
  ({ st with
      iteration_data := st.iteration_data.set st.idx
        ({ (st.iteration_data.getD st.idx default) with
            corrected_segmented := nlpSents (correct_chunk oracle st.calls
              (st.iteration_data.getD st.idx default).paragraph) }),
      calls := st.calls + 1 },
   correct_chunk oracle st.calls (st.iteration_data.getD st.idx default).paragraph)

/-- `last_overlap` (src line 155): the previous piece's sentences from its
retained overlap window onward. -/
def lastOverlap (st : OrchState) : List SpacySpan :=
  (st.iteration_data.getD (st.idx - 1) default).corrected_segmented.drop
    (st.iteration_data.getD (st.idx - 1) default).tail_overlap_index_start

/-- `last_written_overlap` (src line 160): the already-written part of the
previous piece's overlap window, the slice
`corrected_segmented[tail_overlap_index_start : written_indexes["end"]]`. -/
def lastWrittenOverlap (st : OrchState) : List SpacySpan :=
  ((st.iteration_data.getD (st.idx - 1) default).corrected_segmented.drop
    (st.iteration_data.getD (st.idx - 1) default).tail_overlap_index_start).take
    ((st.iteration_data.getD (st.idx - 1) default).written_end
      - (st.iteration_data.getD (st.idx - 1) default).tail_overlap_index_start)

/-- The acceptance branch of the alignment (src lines 160-163): a second
alignment restricted to the already-written overlap fixes
`written_indexes["start"]` one past the matched end index. -/
def alignAccept (st : OrchState) : OrchState :=
  { st with
    iteration_data :=
      st.iteration_data.set st.idx
        ({ (st.iteration_data.getD st.idx default) with
            written_start :=
              (find_similarity (lastWrittenOverlap st)
                (st.iteration_data.getD st.idx default).corrected_segmented).2.2.2
                + 1 }) }

/-- Src lines 155-163: align the previous piece's retained tail against the
active piece's segmentation and decide acceptance by
`similarity >= 1 - MISMATCH_THRESHOLD`. -/
def alignCheck (cfg : Config) (st : OrchState) : Bool × OrchState :=
  if 1 - cfg.MISMATCH_THRESHOLD ≤
      (find_similarity (lastOverlap st)
        (st.iteration_data.getD st.idx default).corrected_segmented).1 then
    (true, alignAccept st)
  else (false, st)

/-- Src lines 177-189: roll back after too many failed alignments. `idx` is
decremented; for a target index above zero the previous piece's committed span
is cut off the output file (note the source decrements `start_write_char` by
one whenever the target index is positive), and for target index zero the
output file is removed. -/
def rollbackStep (st : OrchState) : OrchState :=
  let idx' := st.idx - 1
  if 0 < idx' then
    let d := st.iteration_data.getD idx' default
    let start_write_char : Int :=
      ((d.corrected_segmented.getD d.written_start default).start_char : Int) - 1
    let end_write_char : Int :=
      ((d.corrected_segmented.getD d.written_end default).end_char : Int)
    { st with idx := idx',
              outFile := st.outFile.map
                (fun c => truncate_file c (end_write_char - start_write_char)) }
  else
    { st with idx := idx', outFile := none }

/-- Src lines 193-198: recompute `tail_overlap_index_start`, walking sentence
indices downwards while the suffix's character span fits in
`MAX_OVERLAP_SIZE`; the loop `break`s at the first failure, leaving the old
field value if the very first test fails. -/
def computeTail (cfg : Config) (segs : List SpacySpan) (old : Nat) : Nat :=
  ((List.range segs.length).reverse.foldl
    (fun (st : Nat × Bool) i =>
      if st.2 then st
      else if ((segs.getLastD default).end_char : ℚ) -
          ((segs.getD i default).start_char : ℚ) + 1 ≤ cfg.MAX_OVERLAP_SIZE then
        (i, false)
      else (st.1, true))
    (old, false)).1

/-- Python `round(n / 2)` for a natural `n`: exact halves round to the nearest
even integer (banker's rounding). -/
def pyRoundHalfDiv2 (n : Nat) : Nat :=
  if n % 2 = 0 then n / 2
  else if (n / 2) % 2 = 0 then n / 2 else n / 2 + 1

/-- Src lines 200-204: the commit range's end index — the midpoint of the
retained overlap window for all but the last piece, the final sentence for the
last piece. -/
def commitWrittenEnd (numPieces idxv : Nat) (segs : List SpacySpan) (tail : Nat) :
    Nat :=
  if idxv < numPieces - 1 then
    tail + pyRoundHalfDiv2 (segs.length - tail)
  else segs.length - 1

/-- Src lines 191-224: after an accepted match, recompute the overlap window,
fix the commit range's end, and append the corrected span
`corrected[start_write_char:end_write_char]` to the output file. -/
def commitPhase (cfg : Config) (st : OrchState) (corrected : String) : OrchState :=
  let d := st.iteration_data.getD st.idx default
  let tail := computeTail cfg d.corrected_segmented d.tail_overlap_index_start
  let we := commitWrittenEnd st.iteration_data.length st.idx d.corrected_segmented tail
  let d1 := { d with tail_overlap_index_start := tail, written_end := we }
  let start_write_char : Int :=
    ((d1.corrected_segmented.getD d1.written_start default).start_char : Int) -
      (if 0 < d1.written_start then 1 else 0)
  let end_write_char : Int :=
    ((d1.corrected_segmented.getD we default).end_char : Int)
  let writing_segment := pySlice corrected start_write_char end_write_char
  { st with iteration_data := st.iteration_data.set st.idx d1,
            outFile := some (st.outFile.getD "" ++ writing_segment),
            idx := st.idx + 1 }

/-- The outcome of the inner `while(not matching_found)` loop: either a match
was accepted (yielding the state and the `corrected` text to commit), or three
failures triggered a rollback. -/
inductive InnerResult where
  | accepted (st : OrchState) (corrected : String)
  | rolledBack (st : OrchState)
  deriving Repr

/-- One pass through the inner loop's body up to the acceptance decision
(src lines 147-163): correct, segment, and — except for piece 0, which is
auto-accepted — align. -/
def innerAttempt (cfg : Config) (oracle : Nat → String → String) (st : OrchState) :
    Bool × OrchState × String :=
  let p := correctSegment oracle st
  if p.1.idx = 0 then (true, p.1, p.2)
  else
    let q := alignCheck cfg p.1
    (q.1, q.2, p.2)

/-- The inner loop (src lines 146-189): repeat attempts, counting failures in
`similarity_retry`; the third failure (`similarity_retry >= 3`) rolls back.
`fuel` is the number of retries still allowed, so the loop is entered with
`fuel = 2`. -/
def innerLoop (cfg : Config) (oracle : Nat → String → String) :
    Nat → OrchState → InnerResult
  | 0, st =>
    if (innerAttempt cfg oracle st).1 then
      .accepted (innerAttempt cfg oracle st).2.1 (innerAttempt cfg oracle st).2.2
    else .rolledBack (rollbackStep (innerAttempt cfg oracle st).2.1)
  | fuel + 1, st =>
    if (innerAttempt cfg oracle st).1 then
      .accepted (innerAttempt cfg oracle st).2.1 (innerAttempt cfg oracle st).2.2
    else innerLoop cfg oracle fuel (innerAttempt cfg oracle st).2.1

/-- One iteration of the outer `while idx < len(iteration_data)` loop
(src lines 142-224). -/
def outerStep (cfg : Config) (oracle : Nat → String → String) (st : OrchState) :
    OrchState :=
  match innerLoop cfg oracle 2 st with
  | .accepted st1 corrected => commitPhase cfg st1 corrected
  | .rolledBack st1 => st1

/-- The outer loop, driven by fuel (rollback makes it unbounded in general);
`none` means the fuel ran out before all pieces were committed. -/
def runLoop (cfg : Config) (oracle : Nat → String → String) :
    Nat → OrchState → Option OrchState
  | 0, st => if st.iteration_data.length ≤ st.idx then some st else none
  | fuel + 1, st =>
    if st.iteration_data.length ≤ st.idx then some st
    else runLoop cfg oracle fuel (outerStep cfg oracle st)

/-- `correct_file` from the file content onward (src lines 129-224): split the
input into lines, chunk them, and run the orchestrator from an empty state.
The file-existence check and the removal of a stale output file are part of
the CLI model below (our output state starts as "no file"). A chunking error
propagates before any correction request is issued. -/
def correct_file (cfg : Config) (oracle : Nat → String → String) (fuel : Nat)
    (full_text : String) : Except String (Option OrchState) :=
  match chunk_sentences (pySplitNewline full_text)
      cfg.CHUNK_CHARS_LIMIT cfg.OVERLAP_PERCENT with
  | .error e => .error e
  | .ok paragraphs =>
    .ok (runLoop cfg oracle fuel
      { iteration_data := paragraphs.map (fun p => { paragraph := p }) })

/-! ## CLI entry point (src lines 227-233) and file-system model -/

/-- A flat file system: an association of paths to contents. -/
structure FSModel where
  files : List (String × String)
  deriving Repr, DecidableEq

def FSModel.lookup (fs : FSModel) (path : String) : Option String :=
  (fs.files.find? (fun p => p.1 = path)).map (·.2)

def FSModel.remove (fs : FSModel) (path : String) : FSModel :=
  ⟨fs.files.filter (fun p => ¬ p.1 = path)⟩

def FSModel.writeOut (fs : FSModel) (path content : String) : FSModel :=
  ⟨(fs.remove path).files ++ [(path, content)]⟩

/-- The observable outcome of one run of the script: the process exit status
(Python exits with `0` when the script falls off the end — there is no
`sys.exit` call — and with `1` on an uncaught exception), which messages were
printed, and the resulting file system. -/
structure CLIResult where
  exitCode : Nat
  usage_printed : Bool
  error_printed : Bool
  fs : FSModel
  deriving Repr, DecidableEq

/-- `if os.path.exists(path): os.remove(path)` (src lines 231-232). -/
def removeIfExists (fs : FSModel) (path : String) : FSModel :=
  if (fs.lookup path).isSome then fs.remove path else fs

/-- The body of a run with exactly two user arguments: the stale output is
removed, then `correct_file` checks the input file, prints an error and
returns if it is missing (the script then ends with status `0`), and
otherwise runs the pipeline and leaves the produced content at the output
path; an uncaught chunking error exits with status `1`. `none` means the
orchestrator's fuel ran out. -/
def mainGo (cfg : Config) (oracle : Nat → String → String) (fuel : Nat)
    (inputPath outputPath : String) (fs : FSModel) : Option CLIResult :=
  match (removeIfExists fs outputPath).lookup inputPath with
  | none => some ⟨0, false, true, removeIfExists fs outputPath⟩
  | some full_text =>
    match correct_file cfg oracle fuel full_text with
    | .error _ => some ⟨1, false, false, removeIfExists fs outputPath⟩
    | .ok none => none
    | .ok (some stF) =>
      match stF.outFile with
      | some content =>
        some ⟨0, false, false, (removeIfExists fs outputPath).writeOut outputPath content⟩
      | none => some ⟨0, false, false, removeIfExists fs outputPath⟩

/-- The `__main__` block (src lines 227-233): with an argument count other
than three (the script name plus two paths) the usage line is printed and the
script ends normally with status `0`; otherwise the run proceeds as in
`mainGo`. -/
def mainModel (cfg : Config) (oracle : Nat → String → String) (fuel : Nat)
    (argv : List String) (fs : FSModel) : Option CLIResult :=
  if argv.length ≠ 3 then some ⟨0, true, false, fs⟩
  else mainGo cfg oracle fuel (argv.getD 1 "") (argv.getD 2 "") fs

/-! ## Concrete scenario: identity corrector on a two-piece document -/

/-- A configuration with a smaller character budget and 20% overlap (the spec's
§6 lists `chunk_char_budget` and `overlap_percent` as configuration options;
small values keep the trace tractable). -/
def cfgC1 : Config :=
  { CHUNK_CHARS_LIMIT := 20, OUTPUT_PERCENT := 80, MISMATCH_THRESHOLD := 3 / 100 }

/-- A sixteen-sentence one-line document. -/
def docC1 : String := "A. B. C. D. E. F. G. H. I. J. K. L. M. N. O. P."

def paraC1a : String := "A. B. C. D. E. F. G. H. I. J. K."

def paraC1b : String := "I. J. K. L. M. N. O. P.\n"

def segC1a : List SpacySpan :=
  [⟨0, 2, "A."⟩, ⟨3, 5, "B."⟩, ⟨6, 8, "C."⟩, ⟨9, 11, "D."⟩, ⟨12, 14, "E."⟩,
   ⟨15, 17, "F."⟩, ⟨18, 20, "G."⟩, ⟨21, 23, "H."⟩, ⟨24, 26, "I."⟩,
   ⟨27, 29, "J."⟩, ⟨30, 32, "K."⟩]

def segC1b : List SpacySpan :=
  [⟨0, 2, "I."⟩, ⟨3, 5, "J."⟩, ⟨6, 8, "K."⟩, ⟨9, 11, "L."⟩, ⟨12, 14, "M."⟩,
   ⟨15, 17, "N."⟩, ⟨18, 20, "O."⟩, ⟨21, 23, "P."⟩]

def st0C1 : OrchState :=
  { iteration_data := [{ paragraph := paraC1a }, { paragraph := paraC1b }] }

def st1C1 : OrchState :=
  { iteration_data :=
      [{ paragraph := paraC1a, corrected_segmented := segC1a,
         tail_overlap_index_start := 10, written_start := 0, written_end := 10 },
       { paragraph := paraC1b }],
    idx := 1,
    outFile := some "A. B. C. D. E. F. G. H. I. J. K.",
    calls := 1 }

/-- The duplicated output: `"J. K."` appears twice. -/
def outC1 : String := "A. B. C. D. E. F. G. H. I. J. K. J. K. L. M. N. O. P."

def st2C1 : OrchState :=
  { iteration_data :=
      [{ paragraph := paraC1a, corrected_segmented := segC1a,
         tail_overlap_index_start := 10, written_start := 0, written_end := 10 },
       { paragraph := paraC1b, corrected_segmented := segC1b,
         tail_overlap_index_start := 7, written_start := 1, written_end := 7 }],
    idx := 2,
    outFile := some outC1,
    calls := 2 }

/-- A piece record whose committed span `corrected[start_char - 1 : end_char]`
has length 3 (`start_char = 2`, `end_char = 4`), used to exercise rollback. -/
def pieceC4 : PieceData :=
  { paragraph := "p", corrected_segmented := [⟨0, 1, "x"⟩, ⟨2, 4, "yz"⟩],
    written_start := 1, written_end := 1 }

/-- A state about to roll back from piece 2: the output holds a prefix `"AB"`
plus piece 1's three committed characters. -/
def stC4 : OrchState :=
  { iteration_data := [{ paragraph := "q" }, pieceC4], idx := 2,
    outFile := some "ABxyz" }

/-- A one-piece state at its commit phase (piece 0 is also the last piece). -/
def stC6 : OrchState :=
  { iteration_data := [{ paragraph := "A.", corrected_segmented := [⟨0, 2, "A."⟩] }] }

/-! ## Theorems -/

section ClaimProofs

/- Mathlib marks the core rational-number operations irreducible for the
elaborator; restore default reducibility locally so that concrete runs of the
embedded pipeline can be evaluated definitionally. -/
attribute [local semireducible] Rat.add Rat.mul Rat.inv Rat.sub

set_option maxRecDepth 1000000

/-- `find?` for a key never finds anything in a list filtered to exclude it. -/
theorem find_filter_ne_none (l : List (String × String)) (p : String) :
    (l.filter (fun q => ¬ q.1 = p)).find? (fun q => q.1 = p) = none := by
  rw [List.find?_eq_none]
  intro x hx
  have hmem := List.mem_filter.mp hx
  simpa using hmem.2

theorem FSModel.lookup_remove_self (fs : FSModel) (p : String) :
    (fs.remove p).lookup p = none := by
  unfold FSModel.lookup FSModel.remove
  rw [find_filter_ne_none]
  rfl

theorem FSModel.lookup_remove_none (fs : FSModel) (p q : String)
    (h : fs.lookup q = none) : (fs.remove p).lookup q = none := by
  unfold FSModel.lookup FSModel.remove
  unfold FSModel.lookup at h
  rw [Option.map_eq_none'] at h ⊢
  rw [List.find?_eq_none] at h ⊢
  intro x hx
  exact h x (List.mem_filter.mp hx).1

theorem removeIfExists_lookup_none (fs : FSModel) (o q : String)
    (h : fs.lookup q = none) : (removeIfExists fs o).lookup q = none := by
  unfold removeIfExists
  by_cases ho : (fs.lookup o).isSome
  · rw [if_pos ho]
    exact FSModel.lookup_remove_none fs o q h
  · rw [if_neg ho]
    exact h

theorem removeIfExists_lookup_self (fs : FSModel) (o : String) :
    (removeIfExists fs o).lookup o = none := by
  unfold removeIfExists
  by_cases ho : (fs.lookup o).isSome
  · rw [if_pos ho]
    exact FSModel.lookup_remove_self fs o
  · rw [if_neg ho]
    exact Option.not_isSome_iff_eq_none.mp ho

theorem removeIfExists_of_some (fs : FSModel) (o c : String)
    (h : fs.lookup o = some c) : removeIfExists fs o = fs.remove o := by
  unfold removeIfExists
  rw [if_pos (by rw [h]; rfl)]

/-- **C9**: for every file content of length `L` and every `cutoff_index = n`
with `1 ≤ n ≤ L`, `truncate_file` leaves exactly the first `L - n` characters;
but for `cutoff_index = 0` it empties the file completely instead of leaving
it unchanged (`content[:-0]` is `content[:0]`, the empty prefix). -/
theorem pySliceIdx_zero (L : Nat) : pySliceIdx L 0 = 0 := by
  simp [pySliceIdx]

theorem pySliceIdx_negOfNat (L n : Nat) (h1 : 1 ≤ n) :
    pySliceIdx L (-(n : Int)) = L - n := by
  unfold pySliceIdx
  rw [if_pos (by omega : -(n : Int) < 0)]
  omega

theorem C9_truncate_file_prefix (c : String) (n : Nat) :
    (1 ≤ n → n ≤ c.length → truncate_file c (n : Int) = ⟨c.data.take (c.length - n)⟩)
    ∧ truncate_file c 0 = "" := by
  constructor
  · intro h1 _
    unfold truncate_file pySliceEnd pySlice
    simp only [pySliceIdx_zero, pySliceIdx_negOfNat _ n h1, List.drop_zero]
    rfl
  · unfold truncate_file pySliceEnd pySlice
    simp only [neg_zero, pySliceIdx_zero, List.take_zero, List.drop_zero]

/-- Witness for C9 at a concrete input. -/
theorem C9_truncate_file_prefix_witness :
    truncate_file "hello" ((2 : Nat) : Int) = "hel" ∧ truncate_file "hello" 0 = "" := by
  have h := C9_truncate_file_prefix "hello" 2
  refine ⟨?_, h.2⟩
  rw [h.1 (by norm_num) (by decide)]
  rfl

/-- **C10**: with exactly two CLI arguments and an existing file at the output
path, that file is deleted before the input file's existence is checked, so a
run whose input file is missing still destroys the pre-existing output file
even though no new output is created. -/
theorem C10_stale_output_destroyed (cfg : Config) (oracle : Nat → String → String)
    (fuel : Nat) (p i o : String) (fs : FSModel) (c : String)
    (hin : fs.lookup i = none) (hout : fs.lookup o = some c) :
    mainModel cfg oracle fuel [p, i, o] fs = some ⟨0, false, true, fs.remove o⟩
    ∧ (fs.remove o).lookup o = none := by
  constructor
  · unfold mainModel
    rw [if_neg (by norm_num : ¬ ([p, i, o].length ≠ 3))]
    have hget1 : [p, i, o].getD 1 "" = i := rfl
    have hget2 : [p, i, o].getD 2 "" = o := rfl
    rw [hget1, hget2]
    unfold mainGo
    rw [removeIfExists_lookup_none fs o i hin, removeIfExists_of_some fs o c hout]
  · exact FSModel.lookup_remove_self fs o

/-- Witness for C10 at a concrete file system. -/
theorem C10_stale_output_destroyed_witness :
    mainModel sourceConfig (fun _ s => s) 0 ["correttore.py", "in.txt", "out.txt"]
        ⟨[("out.txt", "stale")]⟩
      = some ⟨0, false, true, ⟨[]⟩⟩
    ∧ (FSModel.remove ⟨[("out.txt", "stale")]⟩ "out.txt").lookup "out.txt" = none := by
  have h := C10_stale_output_destroyed sourceConfig (fun _ s => s) 0
      "correttore.py" "in.txt" "out.txt" ⟨[("out.txt", "stale")]⟩ "stale" rfl rfl
  exact ⟨h.1.trans (by rfl), h.2⟩

/-- **C8, counterexample**: invoked with an argument count other than two, the
script prints the usage line but the process exit status is `0`, not non-zero
(`__main__` only prints; it never calls `sys.exit`). -/
theorem C8_usage_exit_zero_counterexample :
    ∃ r, mainModel sourceConfig (fun _ s => s) 0 ["correttore.py"] ⟨[]⟩ = some r
      ∧ r.usage_printed = true ∧ r.exitCode = 0 := by
  exact ⟨⟨0, true, false, ⟨[]⟩⟩, rfl, rfl, rfl⟩

/-- **C8, amended**: with an argument count other than exactly two the program
prints the usage message and exits with status `0` without touching the file
system; when the input file does not exist it prints an error and terminates
(also with status `0`) without creating the output file. -/
theorem C8_cli_behaviour (cfg : Config) (oracle : Nat → String → String) (fuel : Nat) :
    (∀ (argv : List String) (fs : FSModel), argv.length ≠ 3 →
        mainModel cfg oracle fuel argv fs = some ⟨0, true, false, fs⟩)
    ∧ (∀ (p i o : String) (fs : FSModel), fs.lookup i = none →
        ∃ r, mainModel cfg oracle fuel [p, i, o] fs = some r
          ∧ r.error_printed = true ∧ r.exitCode = 0 ∧ r.fs.lookup o = none) := by
  constructor
  · intro argv fs h
    unfold mainModel
    rw [if_pos h]
  · intro p i o fs hin
    refine ⟨⟨0, false, true, removeIfExists fs o⟩, ?_, rfl, rfl, ?_⟩
    · unfold mainModel
      rw [if_neg (by norm_num : ¬ ([p, i, o].length ≠ 3))]
      have hget1 : [p, i, o].getD 1 "" = i := rfl
      have hget2 : [p, i, o].getD 2 "" = o := rfl
      rw [hget1, hget2]
      unfold mainGo
      rw [removeIfExists_lookup_none fs o i hin]
    · exact removeIfExists_lookup_self fs o

/-- Witness for C8's amended statement at concrete inputs. -/
theorem C8_cli_behaviour_witness :
    mainModel sourceConfig (fun _ s => s) 0 ["correttore.py"] ⟨[]⟩
        = some ⟨0, true, false, ⟨[]⟩⟩
    ∧ ∃ r, mainModel sourceConfig (fun _ s => s) 0
          ["correttore.py", "in.txt", "out.txt"] ⟨[]⟩ = some r
        ∧ r.error_printed = true ∧ r.exitCode = 0 ∧ r.fs.lookup "out.txt" = none := by
  have h := C8_cli_behaviour sourceConfig (fun _ s => s) 0
  exact ⟨h.1 ["correttore.py"] ⟨[]⟩ (by norm_num),
         h.2 "correttore.py" "in.txt" "out.txt" ⟨[]⟩ rfl⟩

/-- **C2**: the chunker does not preserve every original character. For the
two-line document `"A\nB"` the chunker yields the single piece `"A\n B\n"`
(which is also its own core, no overlap having been appended): a separator
space is inserted after the newline and a newline is appended at the end, so
concatenating the cores does not reproduce the document. The source's constant
parameters (2500, 50) are used. -/
theorem C2_chunker_inserts_separator :
    chunk_sentences (pySplitNewline "A\nB") 2500 (100 - 50) = .ok ["A\n B\n"]
    ∧ "A\n B\n" ≠ "A\nB" := by
  exact ⟨by rfl, by decide⟩

/-! ### C1: identity corrector on a multi-piece document -/

theorem runLoop_done (cfg : Config) (oracle : Nat → String → String) (fuel : Nat)
    (st : OrchState) (h : st.iteration_data.length ≤ st.idx) :
    runLoop cfg oracle fuel st = some st := by
  cases fuel <;> simp [runLoop, h]

theorem runLoop_stepwise (cfg : Config) (oracle : Nat → String → String) (fuel : Nat)
    (st : OrchState) (h : st.idx < st.iteration_data.length) :
    runLoop cfg oracle (fuel + 1) st = runLoop cfg oracle fuel (outerStep cfg oracle st) := by
  simp [runLoop, Nat.not_le.mpr h]

theorem chunkC1 :
    chunk_sentences (pySplitNewline docC1) cfgC1.CHUNK_CHARS_LIMIT cfgC1.OVERLAP_PERCENT
      = .ok [paraC1a, paraC1b] := by
  rfl

theorem stepC1a : outerStep cfgC1 (fun _ s => s) st0C1 = st1C1 := by
  rfl

theorem stepC1b : outerStep cfgC1 (fun _ s => s) st1C1 = st2C1 := by
  rfl

/-- **C1**: with a correction service that returns its input unchanged on
every call, a document the chunker splits into two pieces does **not** come
back unchanged from `correct_file`: the final output duplicates the sentences
`"J. K."` at the piece boundary. (Piece 0's commit swallows the whole retained
overlap window because `round(1/2) = 0` under banker's rounding leaves an
empty already-written overlap slice, so the second alignment of piece 1
returns index 0 and `written_start` becomes 1, re-committing sentences that
piece 0 already wrote.) -/
theorem C1_identity_corrector_duplicates_output :
    chunk_sentences (pySplitNewline docC1) cfgC1.CHUNK_CHARS_LIMIT cfgC1.OVERLAP_PERCENT
      = .ok [paraC1a, paraC1b]
    ∧ correct_file cfgC1 (fun _ s => s) 3 docC1 = .ok (some st2C1)
    ∧ st2C1.outFile = some outC1
    ∧ outC1 ≠ docC1 := by
  refine ⟨chunkC1, ?_, rfl, by decide⟩
  unfold correct_file
  rw [chunkC1]
  show Except.ok (runLoop cfgC1 (fun _ s => s) 3 st0C1) = Except.ok (some st2C1)
  rw [runLoop_stepwise cfgC1 (fun _ s => s) 2 st0C1 (by decide), stepC1a,
      runLoop_stepwise cfgC1 (fun _ s => s) 1 st1C1 (by decide), stepC1b,
      runLoop_done cfgC1 (fun _ s => s) 1 st2C1 (by decide)]

/-! ### C7: the oversize-sentence failure -/

theorem chunkStep_error_iff (limit cl : ℚ) (acc : ChunkAcc) (ss : String) :
    (∃ e, chunkStep limit cl acc ss = .error e) ↔
      (limit - cl) / 2 < (corrected_len ss : ℚ) := by
  unfold chunkStep
  by_cases h : ((corrected_len ss : ℚ)) > (limit - cl) / 2
  · rw [if_pos h]
    exact ⟨fun _ => h, fun _ => ⟨_, rfl⟩⟩
  · rw [if_neg h]
    constructor
    · rintro ⟨e, he⟩
      exact absurd he (by simp)
    · intro hh
      exact absurd hh h

theorem chunkStep_ok (limit cl : ℚ) (acc : ChunkAcc) (ss : String)
    (h : ¬ (limit - cl) / 2 < (corrected_len ss : ℚ)) :
    ∃ acc', chunkStep limit cl acc ss = .ok acc' := by
  unfold chunkStep
  rw [if_neg h]
  exact ⟨_, rfl⟩

theorem foldlM_chunkStep_error_iff (limit cl : ℚ) (l : List String) : ∀ acc : ChunkAcc,
    (∃ e, l.foldlM (chunkStep limit cl) acc = .error e) ↔
      ∃ ss ∈ l, (limit - cl) / 2 < (corrected_len ss : ℚ) := by
  induction l with
  | nil =>
    intro acc
    simp [List.foldlM_nil, pure, Except.pure]
  | cons a t ih =>
    intro acc
    rw [List.foldlM_cons]
    by_cases h : (limit - cl) / 2 < (corrected_len a : ℚ)
    · obtain ⟨e, he⟩ := (chunkStep_error_iff limit cl acc a).mpr h
      rw [he]
      have hbind : ((Except.error e : Except String ChunkAcc) >>=
          fun b => t.foldlM (chunkStep limit cl) b) = .error e := rfl
      rw [hbind]
      exact ⟨fun _ => ⟨a, List.mem_cons_self a t, h⟩, fun _ => ⟨e, rfl⟩⟩
    · obtain ⟨acc', hok⟩ := chunkStep_ok limit cl acc a h
      rw [hok]
      have hbind : ((Except.ok acc' : Except String ChunkAcc) >>=
          fun b => t.foldlM (chunkStep limit cl) b) = t.foldlM (chunkStep limit cl) acc' := rfl
      rw [hbind, ih acc']
      constructor
      · rintro ⟨ss, hm, hss⟩
        exact ⟨ss, List.mem_cons_of_mem a hm, hss⟩
      · rintro ⟨ss, hm, hss⟩
        rcases List.mem_cons.mp hm with rfl | hm'
        · exact absurd hss h
        · exact ⟨ss, hm', hss⟩

theorem foldlM_lineSubs_flatten (limit cl : ℚ) (L : List String) : ∀ acc : ChunkAcc,
    L.foldlM (fun acc s => (lineSubs s).foldlM (chunkStep limit cl) acc) acc
      = (L.flatMap lineSubs).foldlM (chunkStep limit cl) acc := by
  induction L with
  | nil => intro acc; rfl
  | cons s t ih =>
    intro acc
    rw [List.foldlM_cons, List.flatMap_cons, List.foldlM_append]
    exact bind_congr (fun acc' => ih acc')

theorem chunk_sentences_error_iff (string_list : List String) (limit op : ℚ) :
    (∃ e, chunk_sentences string_list limit op = .error e) ↔
      ∃ ss ∈ string_list.flatMap lineSubs,
        (limit - (limit - limit * op / 100)) / 2 < (corrected_len ss : ℚ) := by
  unfold chunk_sentences
  rw [foldlM_lineSubs_flatten]
  rw [← foldlM_chunkStep_error_iff limit (limit - limit * op / 100)
      (string_list.flatMap lineSubs) ⟨[], [], 0, 0⟩]
  cases hfold : (string_list.flatMap lineSubs).foldlM
      (chunkStep limit (limit - limit * op / 100)) ⟨[], [], 0, 0⟩ with
  | error e => simp
  | ok acc => simp

theorem corrected_len_append_newline (t : String) :
    corrected_len (t ++ "\n") = corrected_len t := by
  unfold corrected_len
  have hdata : (t ++ "\n").data = t.data ++ ['\n'] := by
    rw [String.data_append]
  have h1 : (t ++ "\n").length = (t ++ "\n").data.length := rfl
  have h2 : t.length = t.data.length := rfl
  have hlen : (t ++ "\n").length = t.length + 1 := by
    rw [h1, h2, hdata, List.length_append]
    rfl
  have hfilterlen : ((t ++ "\n").data.filter (fun c => c = '\n')).length
      = (t.data.filter (fun c => c = '\n')).length + 1 := by
    rw [hdata, List.filter_append]
    simp
  have hle : (t.data.filter (fun c => c = '\n')).length ≤ t.length := by
    rw [h2]
    exact List.length_filter_le (fun c => c = '\n') t.data
  omega

theorem corrected_len_newline : corrected_len "\n" = 0 := by
  rfl

theorem exists_appendNewlineLast (T : ℚ) (hT : 0 ≤ T) : ∀ l : List String,
    (∃ ss ∈ appendNewlineLast l, T < (corrected_len ss : ℚ)) ↔
      ∃ t ∈ l, T < (corrected_len t : ℚ) := by
  intro l
  induction l with
  | nil =>
    simp only [appendNewlineLast, List.mem_singleton, List.not_mem_nil]
    constructor
    · rintro ⟨ss, rfl, hss⟩
      rw [corrected_len_newline] at hss
      exact absurd hss (by push_cast; linarith)
    · rintro ⟨t, ht, _⟩
      exact absurd ht (by simp)
  | cons a t ih =>
    cases t with
    | nil =>
      simp only [appendNewlineLast, List.mem_singleton]
      constructor
      · rintro ⟨ss, rfl, hss⟩
        rw [corrected_len_append_newline] at hss
        exact ⟨a, by simp, hss⟩
      · rintro ⟨u, hu, huu⟩
        refine ⟨a ++ "\n", rfl, ?_⟩
        rw [corrected_len_append_newline]
        rw [hu] at huu
        exact huu
    | cons b t' =>
      show (∃ ss ∈ a :: appendNewlineLast (b :: t'), _) ↔ _
      constructor
      · rintro ⟨ss, hm, hss⟩
        rcases List.mem_cons.mp hm with rfl | hm'
        · exact ⟨ss, List.mem_cons_self _ _, hss⟩
        · obtain ⟨u, hu, huu⟩ := ih.mp ⟨ss, hm', hss⟩
          exact ⟨u, List.mem_cons_of_mem a hu, huu⟩
      · rintro ⟨u, hu, huu⟩
        rcases List.mem_cons.mp hu with rfl | hu'
        · exact ⟨u, List.mem_cons_self _ _, huu⟩
        · obtain ⟨ss, hm, hss⟩ := ih.mpr ⟨u, hu', huu⟩
          exact ⟨ss, List.mem_cons_of_mem a hm, hss⟩

/-- `lineSubs` preserves the existence of an oversize sentence: the appended
newline does not change `corrected_len`, and the `"\n"` inserted for an empty
line has `corrected_len` zero. -/
theorem exists_lineSubs (T : ℚ) (hT : 0 ≤ T) (s : String) :
    (∃ ss ∈ lineSubs s, T < (corrected_len ss : ℚ)) ↔
      ∃ sp ∈ nlpSents s, T < (corrected_len sp.text : ℚ) := by
  unfold lineSubs
  rw [exists_appendNewlineLast T hT ((nlpSents s).map (·.text))]
  constructor
  · rintro ⟨u, hu, huu⟩
    obtain ⟨sp, hsp, rfl⟩ := List.mem_map.mp hu
    exact ⟨sp, hsp, huu⟩
  · rintro ⟨sp, hsp, hspp⟩
    exact ⟨sp.text, List.mem_map.mpr ⟨sp, hsp, rfl⟩, hspp⟩

/-- **C7**: `chunk_sentences` fails with the `"String too long"` error exactly
when some sentence of some input line has visible length (its character count
excluding newline characters — for line-derived sentences simply its length)
exceeding half the overlap budget `chunk_word_limit * overlap_percent / 100 / 2`;
and such an error aborts `correct_file` identically for every correction
oracle, so no correction request is ever influenced by (or issued for) the
document. -/
theorem C7_piece_too_large (string_list : List String) (limit op : ℚ)
    (h0 : 0 ≤ limit * op) :
    ((∃ e, chunk_sentences string_list limit op = .error e) ↔
      ∃ s ∈ string_list, ∃ sp ∈ nlpSents s,
        limit * op / 100 / 2 < (corrected_len sp.text : ℚ))
    ∧ (∀ (cfg : Config) (oracle : Nat → String → String) (fuel : Nat)
        (doc : String) (e : String),
        chunk_sentences (pySplitNewline doc) cfg.CHUNK_CHARS_LIMIT cfg.OVERLAP_PERCENT
          = .error e →
        correct_file cfg oracle fuel doc = .error e) := by
  constructor
  · rw [chunk_sentences_error_iff]
    have hthr : (limit - (limit - limit * op / 100)) / 2 = limit * op / 100 / 2 := by
      ring_nf
    rw [hthr]
    have hT : 0 ≤ limit * op / 100 / 2 := by positivity
    constructor
    · rintro ⟨ss, hm, hss⟩
      obtain ⟨s, hs, hmem⟩ := List.mem_flatMap.mp hm
      obtain ⟨sp, hsp, huu⟩ := (exists_lineSubs _ hT s).mp ⟨ss, hmem, hss⟩
      exact ⟨s, hs, sp, hsp, huu⟩
    · rintro ⟨s, hs, sp, hsp, hsp2⟩
      obtain ⟨ss, hmem, hss⟩ := (exists_lineSubs _ hT s).mpr ⟨sp, hsp, hsp2⟩
      exact ⟨ss, List.mem_flatMap.mpr ⟨s, hs, hmem⟩, hss⟩
  · intro cfg oracle fuel doc e he
    unfold correct_file
    rw [he]

/-- Witness for C7: a seven-character sentence with budget 4 and 50% overlap
(half budget 1) triggers the error. -/
theorem C7_piece_too_large_witness :
    ∃ e, chunk_sentences ["Toolong"] 4 50 = .error e := by
  have h := C7_piece_too_large ["Toolong"] 4 50 (by norm_num)
  refine h.1.mpr ⟨"Toolong", by simp, ⟨0, 7, "Toolong"⟩, ?_, by decide⟩
  show ⟨0, 7, "Toolong"⟩ ∈ nlpSents "Toolong"
  rw [show nlpSents "Toolong" = [⟨0, 7, "Toolong"⟩] from rfl]
  exact List.mem_singleton.mpr rfl

/-! ### C3: what `find_similarity` maximises over, and its tie-break -/

theorem fsFold_spec (s1 s2 : List SpacySpan) : ∀ (l : List (Nat × Nat × Nat))
    (init : ℚ × Nat × Nat × Nat),
    (∀ c ∈ l, candScore s1 s2 c ≤ (l.foldl (fsStep s1 s2) init).1)
    ∧ init.1 ≤ (l.foldl (fsStep s1 s2) init).1
    ∧ ((l.foldl (fsStep s1 s2) init) = init
       ∨ ∃ pre c post, l = pre ++ c :: post
           ∧ (l.foldl (fsStep s1 s2) init) = (candScore s1 s2 c, c.1, c.2.1, c.2.2)
           ∧ init.1 < candScore s1 s2 c
           ∧ (∀ c' ∈ pre, candScore s1 s2 c' < candScore s1 s2 c)) := by
  intro l
  induction l with
  | nil =>
    intro init
    exact ⟨by simp, le_refl _, Or.inl rfl⟩
  | cons a t ih =>
    intro init
    rw [List.foldl_cons]
    by_cases h : init.1 < candScore s1 s2 a
    · have hstep : fsStep s1 s2 init a = (candScore s1 s2 a, a.1, a.2.1, a.2.2) := by
        unfold fsStep
        rw [if_pos h]
      rw [hstep]
      obtain ⟨ih1, ih2, ih3⟩ := ih (candScore s1 s2 a, a.1, a.2.1, a.2.2)
      refine ⟨?_, le_trans (le_of_lt h) ih2, ?_⟩
      · intro c hc
        rcases List.mem_cons.mp hc with rfl | hc'
        · exact ih2
        · exact ih1 c hc'
      · rcases ih3 with heq | ⟨pre, c, post, hdec, hres, hlt, hpre⟩
        · right
          exact ⟨[], a, t, rfl, heq, h, by simp⟩
        · right
          refine ⟨a :: pre, c, post, by rw [hdec]; rfl, hres, lt_trans h hlt, ?_⟩
          intro c' hc'
          rcases List.mem_cons.mp hc' with rfl | hx
          · exact hlt
          · exact hpre c' hx
    · have hstep : fsStep s1 s2 init a = init := by
        unfold fsStep
        rw [if_neg h]
      rw [hstep]
      obtain ⟨ih1, ih2, ih3⟩ := ih init
      refine ⟨?_, ih2, ?_⟩
      · intro c hc
        rcases List.mem_cons.mp hc with rfl | hc'
        · exact le_trans (not_lt.mp h) ih2
        · exact ih1 c hc'
      · rcases ih3 with heq | ⟨pre, c, post, hdec, hres, hlt, hpre⟩
        · exact Or.inl heq
        · right
          refine ⟨a :: pre, c, post, by rw [hdec]; rfl, hres, hlt, ?_⟩
          intro c' hc'
          rcases List.mem_cons.mp hc' with rfl | hx
          · exact lt_of_le_of_lt (not_lt.mp h) hlt
          · exact hpre c' hx

theorem mem_fsCandidates (n1 n2 i1 i2 i2e : Nat) (h1 : i1 < n1) (h2 : i2 ≤ i2e)
    (h3 : i2e < n2) : (i1, i2, i2e) ∈ fsCandidates n1 n2 := by
  unfold fsCandidates
  refine List.mem_flatMap.mpr ⟨i1, List.mem_range.mpr h1, ?_⟩
  refine List.mem_flatMap.mpr ⟨i2, List.mem_range.mpr (lt_of_le_of_lt h2 h3), ?_⟩
  refine List.mem_map.mpr ⟨i2e, ?_, rfl⟩
  rw [List.mem_range'_1]
  omega

/-- **C3, counterexample**: `find_similarity` does not score every contiguous
sub-range of `sentences2` — the inner loop runs `range(start, len(sentences2))`
but the slice `sentences2[start:end]` treats `end` exclusively, so a sub-range
containing the final sentence is never scored. For `sentences1 = ["b"]` and
`sentences2 = ["a", "b"]`, the best similarity over all sub-ranges is `1`
(`"b"` against `sentences2[1:2] = "b"`), but `find_similarity` returns
similarity `0`. -/
theorem C3_skips_final_sentence_counterexample :
    ¬ find_similarity_dominates [⟨0, 1, "b"⟩] [⟨0, 1, "a"⟩, ⟨2, 3, "b"⟩] := by
  intro h
  have h2 := h 0 1 2 (by decide) (by decide) (by decide)
  rw [show candScore [⟨0, 1, "b"⟩] [⟨0, 1, "a"⟩, ⟨2, 3, "b"⟩] (0, 1, 2) = 1 from rfl] at h2
  rw [show (find_similarity [⟨0, 1, "b"⟩] [⟨0, 1, "a"⟩, ⟨2, 3, "b"⟩]).1 = 0 from rfl] at h2
  exact absurd h2 (by norm_num)

/-- **C3, amended**: the aligner scores every start offset into `sentences1`
against every contiguous sub-range of `sentences2` **whose exclusive end index
is at most `sentences2.length - 1`** (sub-ranges containing the final sentence
are never scored, and empty sub-ranges are scored), returns the maximum
similarity over those candidates, and breaks ties by the first candidate in
iteration order (start offsets ascending, then sub-range start ascending, then
sub-range end ascending); the result is a function of its inputs, hence
deterministic. -/
theorem C3_search_space_and_tiebreak (s1 s2 : List SpacySpan) :
    (∀ i1 i2 i2e, i1 < s1.length → i2 ≤ i2e → i2e < s2.length →
        candScore s1 s2 (i1, i2, i2e) ≤ (find_similarity s1 s2).1)
    ∧ ((find_similarity s1 s2).1 ≠ 0 →
        ∃ pre c post,
          fsCandidates s1.length s2.length = pre ++ c :: post
          ∧ find_similarity s1 s2 = (candScore s1 s2 c, c.1, c.2.1, c.2.2)
          ∧ (∀ c' ∈ pre, candScore s1 s2 c' < candScore s1 s2 c)) := by
  obtain ⟨hdom, _, hatt⟩ :=
    fsFold_spec s1 s2 (fsCandidates s1.length s2.length) (0, 0, 0, 0)
  constructor
  · intro i1 i2 i2e h1 h2 h3
    exact hdom (i1, i2, i2e) (mem_fsCandidates s1.length s2.length i1 i2 i2e h1 h2 h3)
  · intro hne
    rcases hatt with heq | ⟨pre, c, post, hdec, hres, _, hpre⟩
    · exact absurd (congrArg Prod.fst heq) hne
    · exact ⟨pre, c, post, hdec, hres, hpre⟩

/-- Witness for C3's amended statement at concrete sentence lists. -/
theorem C3_search_space_and_tiebreak_witness :
    candScore [⟨0, 1, "b"⟩] [⟨0, 1, "a"⟩, ⟨2, 3, "b"⟩] (0, 0, 1)
      ≤ (find_similarity [⟨0, 1, "b"⟩] [⟨0, 1, "a"⟩, ⟨2, 3, "b"⟩]).1 := by
  exact (C3_search_space_and_tiebreak [⟨0, 1, "b"⟩] [⟨0, 1, "a"⟩, ⟨2, 3, "b"⟩]).1
    0 0 1 (by decide) (by decide) (by decide)

/-! ### C4: rollback restores the previous ledger state -/

theorem getD_set_self {α : Type} (l : List α) (i : Nat) (x d : α)
    (h : i < l.length) : (l.set i x).getD i d = x := by
  simp [List.getD_eq_getElem?_getD, List.getElem?_set_self, h]

theorem getD_set_ne {α : Type} (l : List α) (i j : Nat) (x d : α)
    (h : i ≠ j) : (l.set i x).getD j d = l.getD j d := by
  simp [List.getD_eq_getElem?_getD, List.getElem?_set_ne h]

theorem rollbackStep_idx (st : OrchState) : (rollbackStep st).idx = st.idx - 1 := by
  unfold rollbackStep
  by_cases h : 0 < st.idx - 1 <;> simp [h]

theorem truncate_append (a b : String) (h : 1 ≤ b.length) :
    truncate_file (a ++ b) (b.length : Int) = a := by
  unfold truncate_file pySliceEnd pySlice
  rw [pySliceIdx_zero, pySliceIdx_negOfNat _ _ h, List.drop_zero]
  have hdata : (a ++ b).data = a.data ++ b.data := String.data_append a b
  have hblen : b.length = b.data.length := rfl
  rw [hdata, List.length_append, hblen]
  rw [show a.data.length + b.data.length - b.data.length = a.data.length by omega]
  rw [List.take_left]

/-- **C4**: when piece `k ≥ 2` is rolled back, the output file afterwards holds
exactly the content it had before piece `k-1`'s commit — the truncation cutoff
`end_write_char - (start_write_char - 1)` equals the committed span's length,
so no partial bytes of piece `k-1`'s commit remain; and when the rollback
target reaches piece 0, the output file is removed entirely and the loop
re-enters with `idx = 0`, restarting correction at piece 0. -/
theorem C4_rollback_restores_ledger (st : OrchState) (prevContent w : String)
    (hidx : 2 ≤ st.idx)
    (hout : st.outFile = some (prevContent ++ w))
    (hw : (w.length : Int) =
      (((st.iteration_data.getD (st.idx - 1) default).corrected_segmented.getD
          (st.iteration_data.getD (st.idx - 1) default).written_end default).end_char : Int)
        - ((((st.iteration_data.getD (st.idx - 1) default).corrected_segmented.getD
          (st.iteration_data.getD (st.idx - 1) default).written_start default).start_char : Int) - 1))
    (hw1 : 1 ≤ w.length) :
    ((rollbackStep st).outFile = some prevContent
      ∧ (rollbackStep st).idx = st.idx - 1)
    ∧ (∀ st' : OrchState, st'.idx = 1 →
        (rollbackStep st').outFile = none ∧ (rollbackStep st').idx = 0) := by
  constructor
  · refine ⟨?_, rollbackStep_idx st⟩
    unfold rollbackStep
    rw [if_pos (by omega : 0 < st.idx - 1)]
    show (st.outFile.map fun c => truncate_file c _) = some prevContent
    rw [hout, Option.map_some']
    rw [← hw, truncate_append prevContent w hw1]
  · intro st' h1
    unfold rollbackStep
    rw [h1]
    exact ⟨rfl, rfl⟩

/-- Witness for C4 at a concrete rollback state. -/
theorem C4_rollback_restores_ledger_witness :
    (rollbackStep stC4).outFile = some "AB" ∧ (rollbackStep stC4).idx = 1 := by
  have h := C4_rollback_restores_ledger stC4 "AB" "xyz" (by decide) rfl (by decide)
    (by decide)
  exact h.1

/-! ### C5: auto-accept for piece 0, threshold acceptance, retry, rollback -/

theorem correctSegment_fields (oracle : Nat → String → String) (st : OrchState) :
    (correctSegment oracle st).1.idx = st.idx
    ∧ (correctSegment oracle st).1.calls = st.calls + 1
    ∧ ((correctSegment oracle st).1.iteration_data.getD st.idx default).paragraph
        = (st.iteration_data.getD st.idx default).paragraph
    ∧ (∀ j, j ≠ st.idx →
        (correctSegment oracle st).1.iteration_data.getD j default
          = st.iteration_data.getD j default) := by
  refine ⟨rfl, rfl, ?_, ?_⟩
  · unfold correctSegment
    by_cases h : st.idx < st.iteration_data.length
    · rw [getD_set_self _ _ _ _ h]
    · rw [List.set_eq_of_length_le (by omega)]
  · intro j hj
    unfold correctSegment
    exact getD_set_ne _ _ _ _ _ (fun he => hj he.symm)

theorem alignCheck_false_snd (cfg : Config) (s : OrchState)
    (h : (alignCheck cfg s).1 = false) : (alignCheck cfg s).2 = s := by
  unfold alignCheck at h ⊢
  split at h
  case isTrue => exact absurd h (by simp)
  case isFalse hc => rw [if_neg hc]

/-- A failed attempt leaves the state as `correctSegment` produced it. -/
theorem innerAttempt_false_snd (cfg : Config) (oracle : Nat → String → String)
    (st : OrchState) (h : (innerAttempt cfg oracle st).1 = false) :
    (innerAttempt cfg oracle st).2.1 = (correctSegment oracle st).1 := by
  unfold innerAttempt at h ⊢
  by_cases h0 : (correctSegment oracle st).1.idx = 0
  · rw [if_pos h0] at h
    exact absurd h (by simp)
  · rw [if_neg h0] at h ⊢
    exact alignCheck_false_snd cfg (correctSegment oracle st).1 h

/-- A failed attempt preserves the active index and the piece's source text. -/
theorem innerAttempt_false_fields (cfg : Config) (oracle : Nat → String → String)
    (st : OrchState) (h : (innerAttempt cfg oracle st).1 = false) :
    (innerAttempt cfg oracle st).2.1.idx = st.idx
    ∧ ((innerAttempt cfg oracle st).2.1.iteration_data.getD st.idx default).paragraph
        = (st.iteration_data.getD st.idx default).paragraph := by
  rw [innerAttempt_false_snd cfg oracle st h]
  exact ⟨(correctSegment_fields oracle st).1, (correctSegment_fields oracle st).2.2.1⟩

/-- **C5**: piece 0 skips alignment and is auto-accepted; for a piece index
`≥ 1` the attempt is accepted iff the best similarity between the previous
piece's retained tail and the freshly corrected segmentation is at least
`1 - MISMATCH_THRESHOLD`; a rejected attempt leaves the active index and the
piece's source text unchanged (so the retry re-requests correction of the same
text); and three consecutive failures make the inner loop roll back,
decrementing the active index by exactly one. -/
theorem C5_accept_retry_rollback (cfg : Config) (oracle : Nat → String → String)
    (st : OrchState) :
    (st.idx = 0 → (innerAttempt cfg oracle st).1 = true)
    ∧ (1 ≤ st.idx → st.idx < st.iteration_data.length →
        ((innerAttempt cfg oracle st).1 = true ↔
          1 - cfg.MISMATCH_THRESHOLD ≤
            (find_similarity
              ((st.iteration_data.getD (st.idx - 1) default).corrected_segmented.drop
                (st.iteration_data.getD (st.idx - 1) default).tail_overlap_index_start)
              (nlpSents (correct_chunk oracle st.calls
                (st.iteration_data.getD st.idx default).paragraph))).1))
    ∧ ((innerAttempt cfg oracle st).1 = false →
        ((innerAttempt cfg oracle st).2.1.idx = st.idx
         ∧ ((innerAttempt cfg oracle st).2.1.iteration_data.getD st.idx default).paragraph
            = (st.iteration_data.getD st.idx default).paragraph))
    ∧ ((innerAttempt cfg oracle st).1 = false →
        (innerAttempt cfg oracle (innerAttempt cfg oracle st).2.1).1 = false →
        (innerAttempt cfg oracle
          (innerAttempt cfg oracle (innerAttempt cfg oracle st).2.1).2.1).1 = false →
        innerLoop cfg oracle 2 st
          = .rolledBack (rollbackStep (innerAttempt cfg oracle
              (innerAttempt cfg oracle (innerAttempt cfg oracle st).2.1).2.1).2.1)
        ∧ (rollbackStep (innerAttempt cfg oracle
            (innerAttempt cfg oracle (innerAttempt cfg oracle st).2.1).2.1).2.1).idx
          = st.idx - 1) := by
  have hseg := correctSegment_fields oracle st
  have hidx0 : (correctSegment oracle st).1.idx = st.idx := hseg.1
  refine ⟨?_, ?_, fun h => innerAttempt_false_fields cfg oracle st h, ?_⟩
  · intro h0
    unfold innerAttempt
    rw [if_pos (by rw [hidx0, h0])]
  · intro h1 hlen
    unfold innerAttempt
    rw [if_neg (by rw [hidx0]; omega)]
    show (alignCheck cfg (correctSegment oracle st).1).1 = true ↔ _
    have hlo : lastOverlap (correctSegment oracle st).1
        = (st.iteration_data.getD (st.idx - 1) default).corrected_segmented.drop
            (st.iteration_data.getD (st.idx - 1) default).tail_overlap_index_start := by
      unfold lastOverlap
      rw [hidx0, hseg.2.2.2 (st.idx - 1) (by omega)]
    have hcur : ((correctSegment oracle st).1.iteration_data.getD
        (correctSegment oracle st).1.idx default).corrected_segmented
        = nlpSents (correct_chunk oracle st.calls
            (st.iteration_data.getD st.idx default).paragraph) := by
      rw [hidx0]
      unfold correctSegment
      rw [getD_set_self _ _ _ _ hlen]
    unfold alignCheck
    rw [hlo, hcur]
    split
    · next hsim => simpa using hsim
    · next hsim => simpa using hsim
  · intro f1 f2 f3
    have hi1 := (innerAttempt_false_fields cfg oracle st f1).1
    have hi2 := (innerAttempt_false_fields cfg oracle _ f2).1
    have hi3 := (innerAttempt_false_fields cfg oracle _ f3).1
    constructor
    · show innerLoop cfg oracle 2 st = _
      rw [innerLoop, if_neg (by rw [f1]; simp)]
      rw [innerLoop, if_neg (by rw [f2]; simp)]
      rw [innerLoop, if_neg (by rw [f3]; simp)]
    · rw [rollbackStep_idx, hi3, hi2, hi1]

/-- Witness for C5: piece 0 of the concrete scenario is auto-accepted, and
piece 1's attempt is accepted because its best similarity is `1 ≥ 1 - 0.03`. -/
theorem C5_accept_retry_rollback_witness :
    (innerAttempt cfgC1 (fun _ s => s) st0C1).1 = true
    ∧ (innerAttempt cfgC1 (fun _ s => s) st1C1).1 = true := by
  have h0 := (C5_accept_retry_rollback cfgC1 (fun _ s => s) st0C1).1 rfl
  have h2 := (C5_accept_retry_rollback cfgC1 (fun _ s => s) st1C1).2.1
    (by decide) (by decide)
  exact ⟨h0, h2.mpr (by decide)⟩

/-! ### C6: the commit range's end index -/

/-- **C6**: the committed piece's stored end index is `commitWrittenEnd`
applied to the freshly recomputed overlap window: for every piece that is not
the last, it is the overlap window's start index plus half (Python
`round(count/2)`, banker's rounding) of the window's sentence count, and for
the last piece it is the index of the final sentence, so everything remaining
is committed. -/
theorem C6_commit_end_midpoint (cfg : Config) (st : OrchState) (corrected : String)
    (h : st.idx < st.iteration_data.length) :
    ((commitPhase cfg st corrected).iteration_data.getD st.idx default).written_end
      = commitWrittenEnd st.iteration_data.length st.idx
          (st.iteration_data.getD st.idx default).corrected_segmented
          (computeTail cfg (st.iteration_data.getD st.idx default).corrected_segmented
            (st.iteration_data.getD st.idx default).tail_overlap_index_start)
    ∧ (∀ (numPieces idxv tail : Nat) (segs : List SpacySpan), idxv < numPieces - 1 →
        commitWrittenEnd numPieces idxv segs tail
          = tail + pyRoundHalfDiv2 (segs.length - tail))
    ∧ (∀ (numPieces tail : Nat) (segs : List SpacySpan),
        commitWrittenEnd numPieces (numPieces - 1) segs tail = segs.length - 1) := by
  refine ⟨?_, ?_, ?_⟩
  · simp only [commitPhase]
    rw [getD_set_self _ _ _ _ h]
  · intro numPieces idxv tail segs hlt
    unfold commitWrittenEnd
    rw [if_pos hlt]
  · intro numPieces tail segs
    unfold commitWrittenEnd
    rw [if_neg (lt_irrefl _)]

/-- Witness for C6 at concrete states: a single-piece state commits through
its final sentence (index 0), and a non-last piece's end is the midpoint
formula. -/
theorem C6_commit_end_midpoint_witness :
    ((commitPhase sourceConfig stC6 "A.").iteration_data.getD stC6.idx default).written_end
      = 0
    ∧ commitWrittenEnd 5 2 segC1b 3 = 3 + pyRoundHalfDiv2 (8 - 3) := by
  constructor
  · rw [(C6_commit_end_midpoint sourceConfig stC6 "A." (by decide)).1]
    rfl
  · have h := (C6_commit_end_midpoint sourceConfig stC6 "A." (by decide)).2.1
      5 2 3 segC1b (by decide)
    rw [h]
    rfl

end ClaimProofs

end Correttore
